import Mathlib

/-!
Verification of the jobpool package: a bounded job-execution pool with a
priority queue and a normal queue, owned by a single queue routine
(coordinator), plus worker routines that drain wake-up notifications.

The definitions below are a shallow embedding of src/jobpool.go:
  * `PoolState` embeds the queue-related fields of `JobPool`
    (priorityJobQueue, normalJobQueue, queuedJobs, queueCapacity);
  * `queueRoutineEnqueue` embeds lines 298-321, returning the successor
    state together with the list of observable events it emits, in order
    (queue append, counter increment, reply on the caller's result
    channel, wake-up send on jobChannel);
  * `queueRoutineDequeue` embeds lines 324-345; when both queues are
    empty, `normalJobQueue.Front()` is nil and `Remove(nil)` panics
    before the counter decrement; the deferred `catchPanic` recovers, so
    the operation returns with the state unchanged, no response ever
    sent, and the `panicked` flag set;
  * `doJobSafely` embeds lines 387-406 as the ordered trace of worker
    events (counter updates, dequeue request, job run, recovery);
  * `WakeStep` / `ShutdownStep` are small-step protocol models of the
    wake-notification accounting (lines 302-320, 338, 360) and of the
    `Shutdown` handshake (lines 184-207, 348-365).
-/

/-- Embeds `queueJob` (jobpool.go lines 113-117): the Jobber payload is
opaque, so it is represented by an identifier; the ResultChannel is
modelled by response events. -/
structure QueueJob where
  jobId : Nat
  priority : Bool
  deriving DecidableEq, Repr

/-- The value sent back on a queueJob's ResultChannel by the queue
routine: nil on success, the "Job Pool At Capacity" error otherwise. -/
inductive EnqueueResult where
  | ok : EnqueueResult
  | capacityError : EnqueueResult
  deriving DecidableEq, Repr

/-- Observable actions of the queue routine, in program order. -/
inductive PoolEvent where
  | pushPriority : QueueJob → PoolEvent
  | pushNormal : QueueJob → PoolEvent
  | incQueuedJobs : PoolEvent
  | decQueuedJobs : PoolEvent
  | respondEnqueue : EnqueueResult → PoolEvent
  | wakeNotify : PoolEvent
  | respondDequeue : QueueJob → PoolEvent
  deriving DecidableEq, Repr

/-- The queue-related state of `JobPool` (jobpool.go lines 125-137).
`queuedJobs` is an int32 counter in Go; it is modelled as an integer so
that its non-negativity is a real invariant rather than a triviality. -/
structure PoolState where
  priorityJobQueue : List QueueJob
  normalJobQueue : List QueueJob
  queuedJobs : Int
  queueCapacity : Int
  deriving DecidableEq, Repr

/-- Embeds `queueRoutineEnqueue` (lines 298-321): at capacity, reply with
the capacity error and change nothing; otherwise append to the queue
selected by the priority flag, increment queuedJobs, reply nil, then send
one wake-up on jobChannel.  The second component is the ordered event
trace. -/
def queueRoutineEnqueue (s : PoolState) (job : QueueJob) :
    PoolState × List PoolEvent :=
  if s.queuedJobs = s.queueCapacity then
    (s, [PoolEvent.respondEnqueue EnqueueResult.capacityError])
  else
    let s1 :=
      if job.priority then
        { s with priorityJobQueue := s.priorityJobQueue ++ [job] }
      else
        { s with normalJobQueue := s.normalJobQueue ++ [job] }
    let s2 := { s1 with queuedJobs := s1.queuedJobs + 1 }
    (s2,
      (if job.priority then [PoolEvent.pushPriority job]
       else [PoolEvent.pushNormal job]) ++
      [PoolEvent.incQueuedJobs, PoolEvent.respondEnqueue EnqueueResult.ok,
       PoolEvent.wakeNotify])

/-- Result of one `queueRoutineDequeue` call.  `response = some j` means
job `j` was sent on the requesting worker's ResultChannel; `none` means
no response was ever sent.  `panicked` records that a panic was raised
and recovered by the deferred `catchPanic`. -/
structure DequeueOutcome where
  state : PoolState
  response : Option QueueJob
  panicked : Bool
  deriving DecidableEq, Repr

/-- Embeds `queueRoutineDequeue` (lines 324-345): take the front of the
priority queue if it is non-empty, else the front of the normal queue;
decrement queuedJobs; send the job to the caller.  With both queues
empty, `Front()` is nil and `Remove(nil)` panics before the decrement;
`catchPanic` recovers, leaving the state untouched and the caller
without a response. -/
def queueRoutineDequeue (s : PoolState) : DequeueOutcome :=
  match s.priorityJobQueue with
  | j :: rest =>
      { state := { s with priorityJobQueue := rest,
                          queuedJobs := s.queuedJobs - 1 },
        response := some j, panicked := false }
  | [] =>
      match s.normalJobQueue with
      | j :: rest =>
          { state := { s with normalJobQueue := rest,
                              queuedJobs := s.queuedJobs - 1 },
            response := some j, panicked := false }
      | [] => { state := s, response := none, panicked := true }

/-- A request arriving at the queue routine's select (lines 277-293). -/
inductive CoordRequest where
  | enq : QueueJob → CoordRequest
  | deq : CoordRequest
  | shutdownReq : CoordRequest
  deriving DecidableEq, Repr

/-- Embeds one iteration of `queueRoutine` (lines 274-295): the Boolean
is whether the routine keeps looping afterwards.  Panics inside the two
handlers are recovered by their own `catchPanic`, so the routine keeps
running. -/
def queueRoutine (s : PoolState) (req : CoordRequest) : PoolState × Bool :=
  match req with
  | CoordRequest.shutdownReq => (s, false)
  | CoordRequest.enq j => ((queueRoutineEnqueue s j).1, true)
  | CoordRequest.deq => ((queueRoutineDequeue s).state, true)

/-- Embeds the `JobPool` aggregate as built by `New` (lines 151-179):
besides the queue state it records the buffer size each channel is
created with (`make(chan string, queueCapacity)` for jobChannel, all
others unbuffered). -/
structure JobPool where
  state : PoolState
  activeRoutines : Int
  numberOfRoutines : Nat
  jobChannelBuffer : Int
  queueChannelBuffer : Int
  dequeueChannelBuffer : Int
  deriving DecidableEq, Repr

/-- Embeds `New` (lines 151-179). -/
def New (numberOfRoutines : Nat) (queueCapacity : Int) : JobPool :=
  { state :=
      { priorityJobQueue := [], normalJobQueue := [],
        queuedJobs := 0, queueCapacity := queueCapacity },
    activeRoutines := 0,
    numberOfRoutines := numberOfRoutines,
    jobChannelBuffer := queueCapacity,
    queueChannelBuffer := 0,
    dequeueChannelBuffer := 0 }

/-- Embeds `QueuedJobs` (lines 232-234): atomic read of the counter. -/
def JobPool.QueuedJobs (p : JobPool) : Int := p.state.queuedJobs

/-- Embeds `ActiveRoutines` (lines 237-240). -/
def JobPool.ActiveRoutines (p : JobPool) : Int := p.activeRoutines

/-- The replies sent on enqueue callers' ResultChannels within a trace. -/
def sentEnqueueResults (evs : List PoolEvent) : List EnqueueResult :=
  evs.filterMap fun e =>
    match e with
    | PoolEvent.respondEnqueue r => some r
    | _ => none

/-- A sequence of `QueueJob` submissions processed by the queue routine,
collecting the reply each caller receives. -/
def submitAll (s : PoolState) (jobs : List QueueJob) :
    PoolState × List EnqueueResult :=
  match jobs with
  | [] => (s, [])
  | j :: rest =>
      let r := queueRoutineEnqueue s j
      let rec2 := submitAll r.1 rest
      (rec2.1, sentEnqueueResults r.2 ++ rec2.2)

/-- `n` dequeue requests processed in sequence, collecting the jobs
handed back (stopping if a request gets no response). -/
def dequeueN (s : PoolState) (n : Nat) : PoolState × List QueueJob :=
  match n with
  | 0 => (s, [])
  | Nat.succ k =>
      let r := queueRoutineDequeue s
      match r.response with
      | some j =>
          let rest := dequeueN r.state k
          (rest.1, j :: rest.2)
      | none => (r.state, [])

/-- The queue-state invariant maintained by the queue routine: the two
queue lengths sum to the published counter, which stays between 0 and
the configured capacity. -/
def PoolInv (s : PoolState) : Prop :=
  ((s.priorityJobQueue.length + s.normalJobQueue.length : Nat) : Int)
      = s.queuedJobs
    ∧ 0 ≤ s.queuedJobs ∧ s.queuedJobs ≤ s.queueCapacity

instance (s : PoolState) : Decidable (PoolInv s) := by
  unfold PoolInv
  infer_instance

/-- Observable actions of a worker routine, in program order. -/
inductive WorkerEvent where
  | incActiveRoutines : WorkerEvent
  | decActiveRoutines : WorkerEvent
  | dequeueRequest : WorkerEvent
  | runJob : Nat → WorkerEvent
  | logError : WorkerEvent
  | panicRecovered : WorkerEvent
  deriving DecidableEq, Repr

/-- What the worker's `dequeueJob` round trip (lines 368-383) comes back
with: a job handed over by the queue routine, or a non-nil error (for
example a recovered panic from sending on the closed dequeueChannel
during shutdown). -/
inductive DequeueCallResult where
  | gotJob : QueueJob → DequeueCallResult
  | failed : DequeueCallResult
  deriving DecidableEq, Repr

/-- Embeds `doJobSafely` (lines 387-406) as its ordered event trace.
The function body first increments activeRoutines (line 394), then
issues the dequeue request (line 397), then either logs the error or
runs the job; on return the deferred decrement (registered second, so
run first) fires, and the deferred `catchPanic` (registered first, so
run last) recovers a panic raised by `RunJob`. -/
def doJobSafely (call : DequeueCallResult) (runPanics : Bool) :
    List WorkerEvent :=
  WorkerEvent.incActiveRoutines ::
  WorkerEvent.dequeueRequest ::
  (match call with
   | DequeueCallResult.failed =>
       [WorkerEvent.logError, WorkerEvent.decActiveRoutines]
   | DequeueCallResult.gotJob j =>
       WorkerEvent.runJob j.jobId ::
       WorkerEvent.decActiveRoutines ::
       (if runPanics then [WorkerEvent.panicRecovered] else []))

/-- The worker trace in the order the spec claims it: dequeue request
first, then the activeRoutines increment.  Written from the spec's
words, to be compared with `doJobSafely`. -/
def specClaimedWorkerTrace (j : QueueJob) : List WorkerEvent :=
  [WorkerEvent.dequeueRequest, WorkerEvent.incActiveRoutines,
   WorkerEvent.runJob j.jobId, WorkerEvent.decActiveRoutines]

/-- What a worker's select (lines 351-363) woke up on. -/
inductive JobSignal where
  | wake : DequeueCallResult → Bool → JobSignal
  | shutdownSignal : JobSignal

/-- Whether the worker is still in its loop after handling the signal. -/
inductive WorkerPhase where
  | looping : WorkerPhase
  | exited : WorkerPhase
  deriving DecidableEq, Repr

/-- Embeds one iteration of `jobRoutine` (lines 348-365): on the closed
shutdownJobChannel the worker exits; on a jobChannel message it runs
`doJobSafely` and loops again. -/
def jobRoutineStep (sig : JobSignal) : List WorkerEvent × WorkerPhase :=
  match sig with
  | JobSignal.shutdownSignal => ([], WorkerPhase.exited)
  | JobSignal.wake call runPanics =>
      (doJobSafely call runPanics, WorkerPhase.looping)

/-- Counter abstraction of the wake-notification protocol.  `qj` is the
queuedJobs counter, `wakes` the number of messages buffered in
jobChannel, `inflight` the number of wake-ups a worker has consumed
whose dequeue has not yet been served, and `pendingSend` is true while
the queue routine is inside `queueRoutineEnqueue`, after the increment
and the caller reply but before the jobChannel send (line 320). -/
structure WakeState where
  qj : Int
  wakes : Int
  inflight : Int
  pendingSend : Bool
  deriving DecidableEq, Repr

/-- Small-step semantics of the wake-notification accounting.
`enqueue` is the successful path of `queueRoutineEnqueue` up to the
caller reply (lines 302-317); `send` is the jobChannel send (line 320);
`consume` is a worker receiving from jobChannel (line 360); `dequeue`
is the queue routine serving that worker's pull request, with its
counter decrement (line 338). -/
inductive WakeStep (cap : Int) : WakeState → WakeState → Prop where
  | enqueue (s : WakeState) (h : s.qj ≠ cap) (hp : s.pendingSend = false) :
      WakeStep cap s { s with qj := s.qj + 1, pendingSend := true }
  | send (s : WakeState) (hp : s.pendingSend = true) :
      WakeStep cap s { s with wakes := s.wakes + 1, pendingSend := false }
  | consume (s : WakeState) (h : 0 < s.wakes) :
      WakeStep cap s { s with wakes := s.wakes - 1,
                              inflight := s.inflight + 1 }
  | dequeue (s : WakeState) (h : 0 < s.inflight) :
      WakeStep cap s { s with inflight := s.inflight - 1, qj := s.qj - 1 }

/-- States of the wake protocol reachable from the freshly built pool
(all counters zero, no send in progress). -/
inductive WakeReachable (cap : Int) : WakeState → Prop where
  | init : WakeReachable cap { qj := 0, wakes := 0, inflight := 0,
                               pendingSend := false }
  | step {s t : WakeState} : WakeReachable cap s → WakeStep cap s t →
      WakeReachable cap t

/-- Inductive invariant of the wake protocol: buffered wake-ups,
consumed-but-unserved wake-ups and the in-progress send together never
exceed the queuedJobs counter, which never exceeds the capacity. -/
def WakeInv (cap : Int) (s : WakeState) : Prop :=
  s.wakes + s.inflight + (if s.pendingSend then 1 else 0) ≤ s.qj
    ∧ s.qj ≤ cap ∧ 0 ≤ s.wakes ∧ 0 ≤ s.inflight

theorem wakeInv_init {cap : Int} (hcap : 0 ≤ cap) :
    WakeInv cap { qj := 0, wakes := 0, inflight := 0,
                  pendingSend := false } := by
  simp [WakeInv, hcap]

theorem wakeInv_step {cap : Int} {s t : WakeState} (hs : WakeInv cap s)
    (h : WakeStep cap s t) : WakeInv cap t := by
  cases h with
  | enqueue hne hp =>
      simp [WakeInv, hp] at hs ⊢
      omega
  | send hp =>
      simp [WakeInv, hp] at hs ⊢
      omega
  | consume hw =>
      cases hp2 : s.pendingSend <;> simp [WakeInv, hp2] at hs ⊢ <;> omega
  | dequeue hd =>
      cases hp2 : s.pendingSend <;> simp [WakeInv, hp2] at hs ⊢ <;> omega

theorem wakeInv_reachable {cap : Int} {s : WakeState} (hcap : 0 ≤ cap)
    (h : WakeReachable cap s) : WakeInv cap s := by
  induction h with
  | init => exact wakeInv_init hcap
  | step _ hstep ih => exact wakeInv_step ih hstep

/-- Phases of a `Shutdown` call (lines 184-207), in execution order:
the request has been sent on shutdownQueueChannel and awaits the queue
routine's acknowledgement (lines 190-191); the acknowledgement arrived
and the queue channels were closed (lines 193-195); shutdownJobChannel
was closed, signalling every worker, and the call waits on the
WaitGroup (lines 200-201); the WaitGroup reached zero and `Shutdown`
returned. -/
inductive ShutdownPhase where
  | reqSent : ShutdownPhase
  | acked : ShutdownPhase
  | jobChanClosed : ShutdownPhase
  | returned : ShutdownPhase
  deriving DecidableEq, Repr

/-- Rank used as part of the termination measure. -/
def ShutdownPhase.rank : ShutdownPhase → Nat
  | ShutdownPhase.reqSent => 3
  | ShutdownPhase.acked => 2
  | ShutdownPhase.jobChanClosed => 1
  | ShutdownPhase.returned => 0

/-- Abstract state of the pool during a `Shutdown` call: the phase of
the call, the number of worker routines that have not yet exited
(`shutdownWaitGroup` counter), the number of workers currently inside
`doJobSafely`, and the number of undelivered wake-ups buffered in
jobChannel. -/
structure ShutdownSystem where
  phase : ShutdownPhase
  workers : Nat
  busy : Nat
  wakes : Nat
  deriving DecidableEq, Repr

/-- Small-step semantics of the shutdown protocol.  `ack` is the queue
routine answering the shutdown request (lines 278-282, 190-191) after
which the queue channels are closed; `closeJobChannel` is line 200;
`takeWake` is an idle worker winning the select with a buffered wake-up
(line 360); `finishJob` is a worker completing `doJobSafely` — its job
ran to completion, or its dequeue attempt on a closed channel panicked
and was recovered (lines 387-406); `workerExit` is a worker taking the
closed shutdownJobChannel branch and calling `Done` (lines 353-357);
`waitReturns` is `shutdownWaitGroup.Wait()` unblocking with every
worker exited (lines 201-206). -/
inductive ShutdownStep : ShutdownSystem → ShutdownSystem → Prop where
  | ack (s : ShutdownSystem) (h : s.phase = ShutdownPhase.reqSent) :
      ShutdownStep s { s with phase := ShutdownPhase.acked }
  | closeJobChannel (s : ShutdownSystem)
      (h : s.phase = ShutdownPhase.acked) :
      ShutdownStep s { s with phase := ShutdownPhase.jobChanClosed }
  | takeWake (s : ShutdownSystem) (hw : 0 < s.wakes)
      (hb : s.busy < s.workers) :
      ShutdownStep s { s with wakes := s.wakes - 1, busy := s.busy + 1 }
  | finishJob (s : ShutdownSystem) (hb : 0 < s.busy) :
      ShutdownStep s { s with busy := s.busy - 1 }
  | workerExit (s : ShutdownSystem)
      (h : s.phase = ShutdownPhase.jobChanClosed)
      (hb : s.busy < s.workers) :
      ShutdownStep s { s with workers := s.workers - 1 }
  | waitReturns (s : ShutdownSystem)
      (h : s.phase = ShutdownPhase.jobChanClosed) (hw : s.workers = 0) :
      ShutdownStep s { s with phase := ShutdownPhase.returned }

/-- Executions of the shutdown protocol. -/
inductive ShutdownReach : ShutdownSystem → ShutdownSystem → Prop where
  | refl (s : ShutdownSystem) : ShutdownReach s s
  | tail {s t u : ShutdownSystem} : ShutdownReach s t →
      ShutdownStep t u → ShutdownReach s u

/-- Measure showing every shutdown step makes progress. -/
def shutdownMeasure (s : ShutdownSystem) : Nat :=
  2 * s.wakes + s.busy + 2 * s.workers + s.phase.rank

/-- Invariant of the shutdown protocol: busy workers are live workers,
and once the call returned, every worker has exited. -/
def ShutdownInv (s : ShutdownSystem) : Prop :=
  s.busy ≤ s.workers
    ∧ (s.phase = ShutdownPhase.returned → s.workers = 0)

theorem shutdownMeasure_lt {s t : ShutdownSystem}
    (h : ShutdownStep s t) : shutdownMeasure t < shutdownMeasure s := by
  cases h <;> simp [shutdownMeasure, ShutdownPhase.rank, *] <;> omega

theorem shutdownStep_wf :
    WellFounded (fun t s : ShutdownSystem => ShutdownStep s t) :=
  Subrelation.wf (fun h => shutdownMeasure_lt h)
    (InvImage.wf shutdownMeasure Nat.lt_wfRel.wf)

theorem shutdownInv_step {s t : ShutdownSystem} (hs : ShutdownInv s)
    (h : ShutdownStep s t) : ShutdownInv t := by
  obtain ⟨h1, h2⟩ := hs
  cases h with
  | ack h =>
      refine ⟨h1, ?_⟩
      intro hret
      simp at hret
  | closeJobChannel h =>
      refine ⟨h1, ?_⟩
      intro hret
      simp at hret
  | takeWake hw hb =>
      constructor
      · show s.busy + 1 ≤ s.workers
        omega
      · intro hret
        have hw0 := h2 hret
        show s.workers = 0
        omega
  | finishJob hb =>
      constructor
      · show s.busy - 1 ≤ s.workers
        omega
      · intro hret
        exact h2 hret
  | workerExit h hb =>
      constructor
      · show s.busy ≤ s.workers - 1
        omega
      · intro hret
        have hret2 : s.phase = ShutdownPhase.returned := hret
        rw [h] at hret2
        simp at hret2
  | waitReturns h hw =>
      exact ⟨h1, fun _ => hw⟩

theorem shutdownInv_reach {s t : ShutdownSystem} (hs : ShutdownInv s)
    (h : ShutdownReach s t) : ShutdownInv t := by
  induction h with
  | refl => exact hs
  | tail _ hstep ih => exact shutdownInv_step ih hstep

/-- A state with no enabled step is one where `Shutdown` has returned. -/
theorem shutdownStuck_returned (s : ShutdownSystem)
    (hb : s.busy ≤ s.workers) (hstuck : ∀ t, ¬ ShutdownStep s t) :
    s.phase = ShutdownPhase.returned := by
  cases hp : s.phase with
  | reqSent =>
      exact absurd (ShutdownStep.ack s hp) (hstuck _)
  | acked =>
      exact absurd (ShutdownStep.closeJobChannel s hp) (hstuck _)
  | jobChanClosed =>
      rcases Nat.eq_zero_or_pos s.busy with hb0 | hbpos
      · rcases Nat.eq_zero_or_pos s.workers with hw0 | hwpos
        · exact absurd (ShutdownStep.waitReturns s hp hw0) (hstuck _)
        · have hlt : s.busy < s.workers := by omega
          exact absurd (ShutdownStep.workerExit s hp hlt) (hstuck _)
      · exact absurd (ShutdownStep.finishJob s hbpos) (hstuck _)
  | returned => rfl

theorem poolInv_enqueue (s : PoolState) (j : QueueJob) (hs : PoolInv s) :
    PoolInv (queueRoutineEnqueue s j).1 := by
  obtain ⟨h1, h2, h3⟩ := hs
  by_cases hcap : s.queuedJobs = s.queueCapacity
  · have hst : (queueRoutineEnqueue s j).1 = s := by
      simp [queueRoutineEnqueue, hcap]
    rw [hst]
    exact ⟨h1, h2, h3⟩
  · cases hp : j.priority <;>
      simp [queueRoutineEnqueue, hcap, hp, PoolInv] <;> omega

theorem poolInv_dequeue (s : PoolState) (hs : PoolInv s) :
    PoolInv (queueRoutineDequeue s).state := by
  obtain ⟨h1, h2, h3⟩ := hs
  rcases hpq : s.priorityJobQueue with _ | ⟨j, rest⟩
  · rcases hnq : s.normalJobQueue with _ | ⟨j, rest⟩
    · have hst : (queueRoutineDequeue s).state = s := by
        simp [queueRoutineDequeue, hpq, hnq]
      rw [hst]
      exact ⟨h1, h2, h3⟩
    · rw [hpq, hnq] at h1
      simp only [List.length_nil, List.length_cons] at h1
      simp [queueRoutineDequeue, hpq, hnq, PoolInv]
      push_cast at h1 ⊢
      omega
  · rw [hpq] at h1
    simp only [List.length_cons] at h1
    simp [queueRoutineDequeue, hpq, PoolInv]
    push_cast at h1 ⊢
    omega

theorem enqueue_success (s : PoolState) (j : QueueJob)
    (hne : s.queuedJobs ≠ s.queueCapacity) :
    (queueRoutineEnqueue s j).1.queuedJobs = s.queuedJobs + 1 ∧
    (queueRoutineEnqueue s j).1.queueCapacity = s.queueCapacity ∧
    sentEnqueueResults (queueRoutineEnqueue s j).2 = [EnqueueResult.ok] := by
  cases hp : j.priority <;>
    simp [queueRoutineEnqueue, hne, hp, sentEnqueueResults]

theorem submitAll_ok (jobs : List QueueJob) : ∀ s : PoolState,
    PoolInv s → s.queuedJobs + jobs.length ≤ s.queueCapacity →
    (submitAll s jobs).2 = List.replicate jobs.length EnqueueResult.ok ∧
    (submitAll s jobs).1.queuedJobs = s.queuedJobs + jobs.length ∧
    (submitAll s jobs).1.queueCapacity = s.queueCapacity ∧
    PoolInv (submitAll s jobs).1 := by
  induction jobs with
  | nil =>
      intro s hs hcap
      simpa [submitAll] using hs
  | cons j rest ih =>
      intro s hs hcap
      have hne : s.queuedJobs ≠ s.queueCapacity := by
        obtain ⟨h1, h2, h3⟩ := hs
        simp only [List.length_cons] at hcap
        push_cast at hcap
        omega
      obtain ⟨hq, hc, hr⟩ := enqueue_success s j hne
      have hinv := poolInv_enqueue s j hs
      have hcap2 : (queueRoutineEnqueue s j).1.queuedJobs + rest.length ≤
          (queueRoutineEnqueue s j).1.queueCapacity := by
        rw [hq, hc]
        simp only [List.length_cons] at hcap
        push_cast at hcap ⊢
        omega
      obtain ⟨ih1, ih2, ih3, ih4⟩ := ih (queueRoutineEnqueue s j).1 hinv hcap2
      refine ⟨?_, ?_, ?_, ?_⟩
      · show sentEnqueueResults (queueRoutineEnqueue s j).2 ++
          (submitAll (queueRoutineEnqueue s j).1 rest).2 = _
        rw [hr, ih1]
        simp [List.replicate_succ]
      · show (submitAll (queueRoutineEnqueue s j).1 rest).1.queuedJobs = _
        rw [ih2, hq]
        simp only [List.length_cons]
        push_cast
        ring
      · show (submitAll (queueRoutineEnqueue s j).1 rest).1.queueCapacity = _
        rw [ih3, hc]
      · exact ih4

/-- Effect of one worker event on the activeRoutines counter. -/
def activeDelta : WorkerEvent → Int
  | WorkerEvent.incActiveRoutines => 1
  | WorkerEvent.decActiveRoutines => -1
  | _ => 0

/-- C1: with queuedJobs equal to the configured capacity, an enqueue
request is answered with the "pool at capacity" error and mutates
nothing: the queues, the queuedJobs counter, and hence the value read
by `QueuedJobs`, are unchanged. -/
theorem c1_enqueue_at_capacity (s : PoolState) (j : QueueJob)
    (h : s.queuedJobs = s.queueCapacity) :
    queueRoutineEnqueue s j =
      (s, [PoolEvent.respondEnqueue EnqueueResult.capacityError]) ∧
    (queueRoutineEnqueue s j).1.queuedJobs = s.queuedJobs := by
  constructor
  · simp [queueRoutineEnqueue, h]
  · simp [queueRoutineEnqueue, h]

theorem c1_enqueue_at_capacity_witness :
    queueRoutineEnqueue
        { priorityJobQueue := [], normalJobQueue := [],
          queuedJobs := 0, queueCapacity := 0 } ⟨7, true⟩ =
      ({ priorityJobQueue := [], normalJobQueue := [],
         queuedJobs := 0, queueCapacity := 0 },
       [PoolEvent.respondEnqueue EnqueueResult.capacityError]) :=
  (c1_enqueue_at_capacity
    { priorityJobQueue := [], normalJobQueue := [],
      queuedJobs := 0, queueCapacity := 0 } ⟨7, true⟩ rfl).1

/-- C2: a dequeue removes and returns the front of the priority queue
when it is non-empty, else the front of the normal queue, decrementing
queuedJobs by one; submitting J1(normal), J2(priority), J3(normal) and
then draining one job at a time hands the jobs out in the order
J2, J1, J3. -/
theorem c2_dequeue_priority_order :
    (∀ (j : QueueJob) (rest nq : List QueueJob) (qj cap : Int),
        queueRoutineDequeue ⟨j :: rest, nq, qj, cap⟩ =
          ⟨⟨rest, nq, qj - 1, cap⟩, some j, false⟩) ∧
    (∀ (j : QueueJob) (rest : List QueueJob) (qj cap : Int),
        queueRoutineDequeue ⟨[], j :: rest, qj, cap⟩ =
          ⟨⟨[], rest, qj - 1, cap⟩, some j, false⟩) ∧
    (dequeueN (submitAll (New 1 10).state
        [⟨1, false⟩, ⟨2, true⟩, ⟨3, false⟩]).1 3).2 =
      [⟨2, true⟩, ⟨1, false⟩, ⟨3, false⟩] := by
  refine ⟨fun j rest nq qj cap => rfl, fun j rest qj cap => rfl, ?_⟩
  decide

/-- C3: the coordinator invariant — queue lengths sum to queuedJobs and
0 ≤ queuedJobs ≤ capacity — holds of a new pool and is preserved by
every enqueue and every dequeue; after K accepted submissions from a
fresh pool (K within capacity) every caller got a nil reply and the
pending count equals K. -/
theorem c3_coordinator_invariant :
    (∀ (s : PoolState) (j : QueueJob), PoolInv s →
        PoolInv (queueRoutineEnqueue s j).1) ∧
    (∀ s : PoolState, PoolInv s → PoolInv (queueRoutineDequeue s).state) ∧
    (∀ (n : Nat) (c : Int), 0 ≤ c → PoolInv (New n c).state) ∧
    (∀ (n : Nat) (c : Int) (jobs : List QueueJob),
        (jobs.length : Int) ≤ c →
        (submitAll (New n c).state jobs).2 =
          List.replicate jobs.length EnqueueResult.ok ∧
        (submitAll (New n c).state jobs).1.queuedJobs = jobs.length) := by
  refine ⟨poolInv_enqueue, poolInv_dequeue, ?_, ?_⟩
  · intro n c hc
    exact ⟨by simp [New], le_refl 0, by simpa [New] using hc⟩
  · intro n c jobs hlen
    have h0 : PoolInv (New n c).state := by
      refine ⟨by simp [New], le_refl 0, ?_⟩
      simp only [New]
      exact le_trans (Int.ofNat_nonneg jobs.length) hlen
    have hcap : (New n c).state.queuedJobs + jobs.length ≤
        (New n c).state.queueCapacity := by
      simp only [New]
      omega
    obtain ⟨r1, r2, _, _⟩ := submitAll_ok jobs (New n c).state h0 hcap
    refine ⟨r1, ?_⟩
    rw [r2]
    simp [New]

theorem c3_coordinator_invariant_witness :
    (submitAll (New 1 2).state [⟨5, true⟩]).2 =
      List.replicate [(⟨5, true⟩ : QueueJob)].length EnqueueResult.ok ∧
    (submitAll (New 1 2).state [⟨5, true⟩]).1.queuedJobs =
      ([(⟨5, true⟩ : QueueJob)].length : Int) :=
  c3_coordinator_invariant.2.2.2 1 2 [⟨5, true⟩] (by decide)

/-- C4: below capacity, an enqueue appends the job at the back of the
queue selected by its priority flag, increments queuedJobs by one,
answers the caller with nil, and then emits exactly one wake
notification, in that order (trace: append, increment, reply, wake). -/
theorem c4_enqueue_below_capacity (s : PoolState) (j : QueueJob)
    (h : s.queuedJobs < s.queueCapacity) :
    (queueRoutineEnqueue s j).1 =
      (if j.priority then
        { s with priorityJobQueue := s.priorityJobQueue ++ [j],
                 queuedJobs := s.queuedJobs + 1 }
       else
        { s with normalJobQueue := s.normalJobQueue ++ [j],
                 queuedJobs := s.queuedJobs + 1 }) ∧
    (queueRoutineEnqueue s j).2 =
      (if j.priority then [PoolEvent.pushPriority j]
       else [PoolEvent.pushNormal j]) ++
      [PoolEvent.incQueuedJobs, PoolEvent.respondEnqueue EnqueueResult.ok,
       PoolEvent.wakeNotify] ∧
    (queueRoutineEnqueue s j).2.count PoolEvent.wakeNotify = 1 := by
  have hne : s.queuedJobs ≠ s.queueCapacity := ne_of_lt h
  cases hp : j.priority <;>
    simp [queueRoutineEnqueue, hne, hp, List.count_cons]

theorem c4_enqueue_below_capacity_witness :
    (queueRoutineEnqueue (New 2 3).state ⟨4, true⟩).1 =
      (if (⟨4, true⟩ : QueueJob).priority then
        { (New 2 3).state with
            priorityJobQueue := (New 2 3).state.priorityJobQueue ++ [⟨4, true⟩],
            queuedJobs := (New 2 3).state.queuedJobs + 1 }
       else
        { (New 2 3).state with
            normalJobQueue := (New 2 3).state.normalJobQueue ++ [⟨4, true⟩],
            queuedJobs := (New 2 3).state.queuedJobs + 1 }) ∧
    (queueRoutineEnqueue (New 2 3).state ⟨4, true⟩).2 =
      (if (⟨4, true⟩ : QueueJob).priority then
        [PoolEvent.pushPriority ⟨4, true⟩]
       else [PoolEvent.pushNormal ⟨4, true⟩]) ++
      [PoolEvent.incQueuedJobs, PoolEvent.respondEnqueue EnqueueResult.ok,
       PoolEvent.wakeNotify] ∧
    (queueRoutineEnqueue (New 2 3).state ⟨4, true⟩).2.count
        PoolEvent.wakeNotify = 1 :=
  c4_enqueue_below_capacity (New 2 3).state ⟨4, true⟩ (by decide)

/-- C5 (counterexample): the spec's claimed worker order — dequeue
request first, then the activeRoutines increment — does not match
`doJobSafely`, which increments activeRoutines (line 394) before
issuing the dequeue request (line 397). -/
theorem c5_worker_order_counterexample :
    doJobSafely (DequeueCallResult.gotJob ⟨0, false⟩) false ≠
      specClaimedWorkerTrace ⟨0, false⟩ := by
  decide

/-- C5 (amended): on a wake notification the worker first increments
activeRoutines, then issues the Dequeue() request, then runs the job,
then decrements activeRoutines (deferred) — so activeRoutines also
counts a worker that is still waiting on its dequeue, not only workers
executing a job.  The increment is the head of every `doJobSafely`
trace. -/
theorem c5_worker_order (j : QueueJob) :
    doJobSafely (DequeueCallResult.gotJob j) false =
      [WorkerEvent.incActiveRoutines, WorkerEvent.dequeueRequest,
       WorkerEvent.runJob j.jobId, WorkerEvent.decActiveRoutines] ∧
    (∀ (call : DequeueCallResult) (runPanics : Bool),
      (doJobSafely call runPanics).head? =
        some WorkerEvent.incActiveRoutines) :=
  ⟨rfl, fun _ _ => rfl⟩

/-- C6: the wake channel is created with buffer size equal to the pool
capacity, and in every reachable state of the wake protocol the number
of buffered wake notifications is at most queuedJobs; whenever the
queue routine is about to send its post-enqueue wake notification the
buffer holds strictly fewer than capacity messages, so the send never
blocks. -/
theorem c6_wake_send_never_blocks :
    (∀ (n : Nat) (c : Int), (New n c).jobChannelBuffer = c) ∧
    (∀ (cap : Int) (s : WakeState), 0 ≤ cap → WakeReachable cap s →
        s.wakes ≤ s.qj ∧ (s.pendingSend = true → s.wakes < cap)) := by
  constructor
  · intro n c
    rfl
  · intro cap s hcap hreach
    obtain ⟨h1, h2, h3, h4⟩ := wakeInv_reachable hcap hreach
    constructor
    · by_cases hp : s.pendingSend <;> simp [hp] at h1 <;> omega
    · intro hps
      simp [hps] at h1
      omega

theorem c6_wake_send_never_blocks_witness :
    ({ qj := 1, wakes := 0, inflight := 0, pendingSend := true }
        : WakeState).wakes < 1 := by
  have hstep : WakeStep 1
      { qj := 0, wakes := 0, inflight := 0, pendingSend := false }
      { qj := 1, wakes := 0, inflight := 0, pendingSend := true } :=
    WakeStep.enqueue { qj := 0, wakes := 0, inflight := 0, pendingSend := false } (by decide) rfl
  exact (c6_wake_send_never_blocks.2 1
    { qj := 1, wakes := 0, inflight := 0, pendingSend := true }
    (by decide) (WakeReachable.step WakeReachable.init hstep)).2 rfl

/-- C7: the shutdown protocol always terminates (every step decreases a
measure, so the step relation admits no infinite execution), any state
with no enabled step is one where `Shutdown` has returned, once it has
returned every worker has exited, and there is an execution that
returns while wake notifications for queued jobs are still undelivered
(shutdown does not wait for queued-but-unstarted jobs). -/
theorem c7_shutdown_always_returns :
    WellFounded (fun t s : ShutdownSystem => ShutdownStep s t) ∧
    (∀ s : ShutdownSystem, s.busy ≤ s.workers →
        (∀ t, ¬ ShutdownStep s t) → s.phase = ShutdownPhase.returned) ∧
    (∀ s0 s : ShutdownSystem, s0.phase = ShutdownPhase.reqSent →
        s0.busy ≤ s0.workers → ShutdownReach s0 s →
        s.phase = ShutdownPhase.returned → s.workers = 0) ∧
    ShutdownReach ⟨ShutdownPhase.reqSent, 1, 0, 5⟩
      ⟨ShutdownPhase.returned, 0, 0, 5⟩ := by
  refine ⟨shutdownStep_wf, shutdownStuck_returned, ?_, ?_⟩
  · intro s0 s hphase hbw hreach hret
    have hinv : ShutdownInv s0 := by
      refine ⟨hbw, ?_⟩
      intro h
      rw [hphase] at h
      simp at h
    exact (shutdownInv_reach hinv hreach).2 hret
  · have s1 := ShutdownReach.tail
      (ShutdownReach.refl ⟨ShutdownPhase.reqSent, 1, 0, 5⟩)
      (ShutdownStep.ack ⟨ShutdownPhase.reqSent, 1, 0, 5⟩ rfl)
    have s2 := ShutdownReach.tail s1
      (ShutdownStep.closeJobChannel ⟨ShutdownPhase.acked, 1, 0, 5⟩ rfl)
    have s3 := ShutdownReach.tail s2
      (ShutdownStep.workerExit ⟨ShutdownPhase.jobChanClosed, 1, 0, 5⟩
        rfl (by decide))
    have s4 := ShutdownReach.tail s3
      (ShutdownStep.waitReturns ⟨ShutdownPhase.jobChanClosed, 0, 0, 5⟩
        rfl rfl)
    exact s4

theorem c7_shutdown_always_returns_witness :
    (⟨ShutdownPhase.returned, 0, 0, 5⟩ : ShutdownSystem).workers = 0 :=
  c7_shutdown_always_returns.2.2.1 ⟨ShutdownPhase.reqSent, 1, 0, 5⟩
    ⟨ShutdownPhase.returned, 0, 0, 5⟩ rfl (by decide)
    c7_shutdown_always_returns.2.2.2 rfl

/-- C8 (counterexample): the spec says a dequeue whose processing
faults before sending on the result channel leaves the caller
receiving a default/empty value; in fact the queue routine then sends
nothing at all — with both queues empty the dequeue panics and the
requesting worker receives no response. -/
theorem c8_fault_default_value_counterexample :
    ¬ (∀ s : PoolState, (queueRoutineDequeue s).panicked = true →
        ∃ j, (queueRoutineDequeue s).response = some j) := by
  intro h
  obtain ⟨j, hj⟩ := h
    { priorityJobQueue := [], normalJobQueue := [],
      queuedJobs := 0, queueCapacity := 5 } rfl
  simp [queueRoutineDequeue] at hj

/-- C8 (amended): when a dequeue faults before producing a response,
the waiting caller receives no value at all — the request is left
unanswered — while the fault stays contained: the operation returns
with the queue state unchanged. -/
theorem c8_fault_leaves_caller_unanswered (s : PoolState)
    (h : (queueRoutineDequeue s).panicked = true) :
    (queueRoutineDequeue s).response = none ∧
    (queueRoutineDequeue s).state = s := by
  rcases hpq : s.priorityJobQueue with _ | ⟨j, rest⟩
  · rcases hnq : s.normalJobQueue with _ | ⟨j, rest⟩
    · simp [queueRoutineDequeue, hpq, hnq]
    · simp [queueRoutineDequeue, hpq, hnq] at h
  · simp [queueRoutineDequeue, hpq] at h

theorem c8_fault_leaves_caller_unanswered_witness :
    (queueRoutineDequeue (New 3 4).state).response = none ∧
    (queueRoutineDequeue (New 3 4).state).state = (New 3 4).state :=
  c8_fault_leaves_caller_unanswered (New 3 4).state rfl

/-- C9: a job whose RunJob panics is caught inside the worker's per-job
boundary: the worker stays in its loop able to process further jobs,
the recovery event appears in the trace (the panic does not propagate),
and the deferred decrement still runs, so the net effect on
activeRoutines is zero. -/
theorem c9_panicking_job_contained (j : QueueJob) :
    (jobRoutineStep (JobSignal.wake (DequeueCallResult.gotJob j) true)).2 =
      WorkerPhase.looping ∧
    WorkerEvent.panicRecovered ∈
      doJobSafely (DequeueCallResult.gotJob j) true ∧
    WorkerEvent.decActiveRoutines ∈
      doJobSafely (DequeueCallResult.gotJob j) true ∧
    ((doJobSafely (DequeueCallResult.gotJob j) true).map activeDelta).sum
      = 0 := by
  refine ⟨rfl, ?_, ?_, rfl⟩
  · simp [doJobSafely]
  · simp [doJobSafely]

/-- C10: a dequeue processed with both queues empty panics on removing
the front of the empty normal queue; the panic is recovered at the
operation boundary, the queue routine keeps running, queuedJobs and
both queues are unchanged, and no job is ever sent on the requesting
worker's result channel. -/
theorem c10_dequeue_both_empty (s : PoolState)
    (hpq : s.priorityJobQueue = []) (hnq : s.normalJobQueue = []) :
    queueRoutineDequeue s =
      { state := s, response := none, panicked := true } ∧
    queueRoutine s CoordRequest.deq = (s, true) := by
  constructor <;> simp [queueRoutineDequeue, queueRoutine, hpq, hnq]

theorem c10_dequeue_both_empty_witness :
    queueRoutineDequeue (New 2 9).state =
      { state := (New 2 9).state, response := none, panicked := true } ∧
    queueRoutine (New 2 9).state CoordRequest.deq =
      ((New 2 9).state, true) :=
  c10_dequeue_both_empty (New 2 9).state rfl rfl
